import Mathlib

/-!
Shallow embedding of the `viamupnp` package (UPnP device discovery and
matching).  The repository has two variants of the same file:

* variant `V1` (src/find.go): `FindHost` returns the hostname list together
  with a map from each hostname to the first query that matched it, and
  deduplicates hostnames;
* variant `V2` (src/unnamed/part_000): `DeviceQuery` has an extra
  `Endpoints` field, `FindHost` returns only the hostname list, expanding a
  matching query's endpoints as `hostname/endpoint` entries, and `findAll`
  receives the whole network list at once.

Go strings are modelled as `List Char`; the external collaborators
(the ssdp search, the HTTP client, `io.ReadAll`, `xml.Unmarshal` and
`url.Parse`/`Hostname`) are parameters of the embedded functions, their
errors modelled as `Except` values (`url.Parse` failure as `none`).
-/

namespace Viamupnp

/-- Go strings, modelled as lists of characters. -/
abbrev Str := List Char

/-- The `deviceDesc` XML structure: spec version plus the three device
descriptor fields used by matching. -/
structure DeviceDesc where
  specMajor : Int := 0
  specMinor : Int := 0
  manufacturer : Str := []
  modelName : Str := []
  serialNumber : Str := []
deriving DecidableEq

/-- An ssdp service advertisement: its type and descriptor location URL. -/
structure SsdpService where
  type : Str := []
  location : Str := []
deriving DecidableEq

/-- `UPNPDevice`: a service advertisement paired with its resolved
descriptor. -/
structure UPNPDevice where
  service : SsdpService
  desc : DeviceDesc
deriving DecidableEq

/-- The ssdp search type: `ssdp.All` or `ssdp.RootDevice`. -/
inductive SearchType
  | all
  | rootDevice
deriving DecidableEq

/-- `matches(query, s string) bool` (identical in both variants): exact
equality, or, when the pattern ends in `.*`, prefix match against the
pattern with those two characters stripped. -/
def matchesField (query s : Str) : Bool :=
  if query = s then true
  else if List.isSuffixOf ['.', '*'] query then
    List.isPrefixOf (query.take (query.length - 2)) s
  else false

/-- The body of the per-advertisement loop shared by both `findAll`
variants: resolve each advertisement's descriptor, dropping (with a logged
warning in the source) the ones whose fetch fails. -/
def resolveServicesFrom (readDesc : Str → Except Str DeviceDesc)
    (acc : List UPNPDevice) (list : List SsdpService) : List UPNPDevice :=
  list.foldl
    (fun all srv =>
      match readDesc srv.location with
      | .error _ => all
      | .ok desc => all ++ [⟨srv, desc⟩])
    acc

namespace V1

/-- `DeviceQuery` of src/find.go: three pattern fields and a network. -/
structure DeviceQuery where
  modelName : Str := []
  manufacturer : Str := []
  serialNumber : Str := []
  network : Str := []
deriving DecidableEq

/-- `parseNetworks` of src/find.go: append each query's network unless the
list already contains it (no filtering of empty networks). -/
def parseNetworks (queries : List DeviceQuery) : List Str :=
  queries.foldl
    (fun networks query =>
      if networks.contains query.network then networks
      else networks ++ [query.network])
    []

/-- `(*UPNPDevice).Matches` of src/find.go: each non-empty query field must
satisfy the pattern rule against the corresponding descriptor field. -/
def Matches (pc : UPNPDevice) (query : DeviceQuery) : Bool :=
  if query.modelName != ([] : Str) && !matchesField query.modelName pc.desc.modelName then
    false
  else if query.manufacturer != ([] : Str) && !matchesField query.manufacturer pc.desc.manufacturer then
    false
  else if query.serialNumber != ([] : Str) && !matchesField query.serialNumber pc.desc.serialNumber then
    false
  else true

/-- `findAll` of src/find.go: test-injection override, else one ssdp search
on the given network followed by descriptor resolution. -/
def findAll (search : SearchType → Str → Except Str (List SsdpService))
    (readDesc : Str → Except Str DeviceDesc)
    (testInject : Option (List UPNPDevice))
    (rootOnly : Bool) (network : Str) : Except Str (List UPNPDevice) :=
  match testInject with
  | some all => .ok all
  | none =>
    match search (if rootOnly then .rootDevice else .all) network with
    | .error e => .error e
    | .ok list => .ok (resolveServicesFrom readDesc [] list)

/-- The error returned by `FindHost`: a propagated search error, or the
`no match found for queries: %v` error carrying the whole query batch. -/
inductive FindErr
  | searchErr (e : Str)
  | noMatch (queries : List DeviceQuery)
deriving DecidableEq

/-- The body of the per-query loop of `FindHost` in src/find.go: on a match,
parse the location URL (skip on failure) and append the hostname and its
query unless the hostname was already found. -/
def applyQueryStep (parseURL : Str → Option Str) (a : UPNPDevice)
    (acc : List Str × List (Str × DeviceQuery)) (query : DeviceQuery) :
    List Str × List (Str × DeviceQuery) :=
  if Matches a query then
    match parseURL a.service.location with
    | none => acc
    | some host =>
      if acc.1.contains host then acc
      else (acc.1 ++ [host], acc.2 ++ [(host, query)])
  else acc

/-- The per-device loop of `FindHost` in src/find.go: try every query
against the device. -/
def deviceStep (parseURL : Str → Option Str) (queries : List DeviceQuery)
    (acc : List Str × List (Str × DeviceQuery)) (a : UPNPDevice) :
    List Str × List (Str × DeviceQuery) :=
  queries.foldl (applyQueryStep parseURL a) acc

/-- The per-network loop of `FindHost` in src/find.go, followed by the
terminal check: search errors abort with an empty result, and an empty
accumulation yields the no-match error. -/
def FindHostGo (findAllFn : Str → Except Str (List UPNPDevice))
    (parseURL : Str → Option Str) (queries : List DeviceQuery) :
    List Str → List Str × List (Str × DeviceQuery) →
      List Str × Option (List (Str × DeviceQuery)) × Option FindErr
  | [], acc =>
    if 0 < acc.1.length then (acc.1, some acc.2, none)
    else ([], none, some (.noMatch queries))
  | network :: rest, acc =>
    match findAllFn network with
    | .error e => ([], none, some (.searchErr e))
    | .ok all =>
      FindHostGo findAllFn parseURL queries rest
        (all.foldl (deviceStep parseURL queries) acc)

/-- `FindHost` of src/find.go. -/
def FindHost (search : SearchType → Str → Except Str (List SsdpService))
    (readDesc : Str → Except Str DeviceDesc)
    (parseURL : Str → Option Str)
    (testInject : Option (List UPNPDevice))
    (queries : List DeviceQuery) (rootOnly : Bool) :
    List Str × Option (List (Str × DeviceQuery)) × Option FindErr :=
  FindHostGo (findAll search readDesc testInject rootOnly) parseURL queries
    (parseNetworks queries) ([], [])

end V1

namespace V2

/-- `DeviceQuery` of src/unnamed/part_000: the three pattern fields, a
network, and a list of endpoint suffixes. -/
structure DeviceQuery where
  modelName : Str := []
  manufacturer : Str := []
  serialNumber : Str := []
  network : Str := []
  endpoints : List Str := []
deriving DecidableEq

/-- `parseNetworks` of src/unnamed/part_000: append a non-empty network only
when the list already contains it. -/
def parseNetworks (queries : List DeviceQuery) : List Str :=
  queries.foldl
    (fun networks query =>
      if query.network != ([] : Str) && networks.contains query.network then
        networks ++ [query.network]
      else networks)
    []

/-- `(*UPNPDevice).Matches` of src/unnamed/part_000 (same body as V1). -/
def Matches (pc : UPNPDevice) (query : DeviceQuery) : Bool :=
  if query.modelName != ([] : Str) && !matchesField query.modelName pc.desc.modelName then
    false
  else if query.manufacturer != ([] : Str) && !matchesField query.manufacturer pc.desc.manufacturer then
    false
  else if query.serialNumber != ([] : Str) && !matchesField query.serialNumber pc.desc.serialNumber then
    false
  else true

/-- The per-network loop of `findAll` in src/unnamed/part_000: fail fast on
a search error, otherwise resolve the advertisements into the shared
accumulator. -/
def findAllGo (search : SearchType → Str → Except Str (List SsdpService))
    (readDesc : Str → Except Str DeviceDesc) (searchType : SearchType) :
    List Str → List UPNPDevice → Except Str (List UPNPDevice)
  | [], all => .ok all
  | network :: rest, all =>
    match search searchType network with
    | .error e => .error e
    | .ok list =>
      findAllGo search readDesc searchType rest
        (resolveServicesFrom readDesc all list)

/-- `findAll` of src/unnamed/part_000: test-injection override, else iterate
the searches over the whole network list. -/
def findAll (search : SearchType → Str → Except Str (List SsdpService))
    (readDesc : Str → Except Str DeviceDesc)
    (testInject : Option (List UPNPDevice))
    (rootOnly : Bool) (networks : List Str) : Except Str (List UPNPDevice) :=
  match testInject with
  | some all => .ok all
  | none =>
    findAllGo search readDesc (if rootOnly then .rootDevice else .all)
      networks []

/-- The error returned by the V2 `FindHost`. -/
inductive FindErr
  | searchErr (e : Str)
  | noMatch (queries : List DeviceQuery)
deriving DecidableEq

/-- The body of the per-query loop of V2 `FindHost`: on a match, parse the
location URL (skip on failure), then either expand the query's endpoint
suffixes as `hostname/endpoint` entries or append the bare hostname. -/
def hostStep (parseURL : Str → Option Str) (a : UPNPDevice)
    (hostnames : List Str) (query : DeviceQuery) : List Str :=
  if Matches a query then
    match parseURL a.service.location with
    | none => hostnames
    | some host =>
      if 0 < query.endpoints.length then
        hostnames ++ query.endpoints.map (fun endpoint => host ++ '/' :: endpoint)
      else hostnames ++ [host]
  else hostnames

/-- `FindHost` of src/unnamed/part_000. -/
def FindHost (search : SearchType → Str → Except Str (List SsdpService))
    (readDesc : Str → Except Str DeviceDesc)
    (parseURL : Str → Option Str)
    (testInject : Option (List UPNPDevice))
    (queries : List DeviceQuery) (rootOnly : Bool) :
    List Str × Option FindErr :=
  match findAll search readDesc testInject rootOnly (parseNetworks queries) with
  | .error e => ([], some (.searchErr e))
  | .ok all =>
    let hostnames :=
      all.foldl (fun hostnames a => queries.foldl (hostStep parseURL a) hostnames) []
    if 0 < hostnames.length then (hostnames, none)
    else ([], some (.noMatch queries))

end V2

/-- An HTTP response as seen by `readDeviceDesc`: status code and body. -/
structure HttpResponse where
  statusCode : Nat
  body : Str
deriving DecidableEq

/-- The errors produced by `readDeviceDesc` and `parseDeviceDesc`, one
constructor per `return nil, ...` site (identical in both variants). -/
inductive FetchErr
  | requestErr (e : Str)
  | doErr (url : Str) (e : Str)
  | statusNotOk (url : Str) (status : Nat)
  | bodyReadErr (url : Str) (status : Nat)
  | xmlErr (url : Str) (e : Str)
deriving DecidableEq

/-- `parseDeviceDesc`: unmarshal the XML body, wrapping a decode failure
with the URL; mirrors Go's `(*deviceDesc, error)` pair. -/
def parseDeviceDesc (unmarshal : Str → Except Str DeviceDesc)
    (url : Str) (data : Str) : Option DeviceDesc × Option FetchErr :=
  match unmarshal data with
  | .error e => (none, some (.xmlErr url e))
  | .ok desc => (some desc, none)

/-- `readDeviceDesc` (identical in both variants): build the request, issue
it, require HTTP status exactly 200, read the body, decode it. -/
def readDeviceDesc (newRequest : Str → Except Str Unit)
    (doRequest : Str → Except Str HttpResponse)
    (readAll : Str → Except Str Str)
    (unmarshal : Str → Except Str DeviceDesc)
    (url : Str) : Option DeviceDesc × Option FetchErr :=
  match newRequest url with
  | .error e => (none, some (.requestErr e))
  | .ok _ =>
    match doRequest url with
    | .error e => (none, some (.doErr url e))
    | .ok resp =>
      if resp.statusCode ≠ 200 then (none, some (.statusNotOk url resp.statusCode))
      else
        match readAll resp.body with
        | .error _ => (none, some (.bodyReadErr url resp.statusCode))
        | .ok data => parseDeviceDesc unmarshal url data

/-! ### Helper lemmas about the matchers -/

theorem v1_matches_iff (pc : UPNPDevice) (q : V1.DeviceQuery) :
    V1.Matches pc q = true ↔
      ((q.modelName = [] ∨ matchesField q.modelName pc.desc.modelName = true) ∧
       (q.manufacturer = [] ∨ matchesField q.manufacturer pc.desc.manufacturer = true) ∧
       (q.serialNumber = [] ∨ matchesField q.serialNumber pc.desc.serialNumber = true)) := by
  simp only [V1.Matches]
  split_ifs with h1 h2 h3 <;>
    simp_all [Bool.and_eq_true, bne_iff_ne, Bool.not_eq_true'] <;>
    tauto

theorem v2_matches_iff (pc : UPNPDevice) (q : V2.DeviceQuery) :
    V2.Matches pc q = true ↔
      ((q.modelName = [] ∨ matchesField q.modelName pc.desc.modelName = true) ∧
       (q.manufacturer = [] ∨ matchesField q.manufacturer pc.desc.manufacturer = true) ∧
       (q.serialNumber = [] ∨ matchesField q.serialNumber pc.desc.serialNumber = true)) := by
  simp only [V2.Matches]
  split_ifs with h1 h2 h3 <;>
    simp_all [Bool.and_eq_true, bne_iff_ne, Bool.not_eq_true'] <;>
    tauto

theorem v1_matches_network (pc : UPNPDevice) (q : V1.DeviceQuery) (n : Str) :
    V1.Matches pc { q with network := n } = V1.Matches pc q := rfl

theorem v2_matches_network_endpoints (pc : UPNPDevice) (q : V2.DeviceQuery)
    (n : Str) (eps : List Str) :
    V2.Matches pc { q with network := n, endpoints := eps } = V2.Matches pc q := rfl

theorem v1_matches_empty (pc : UPNPDevice) : V1.Matches pc {} = true := by
  simp [V1.Matches]

theorem v2_matches_empty (pc : UPNPDevice) : V2.Matches pc {} = true := by
  simp [V2.Matches]

/-! ### Claim C2 -/

/-- Claim C2: for every pattern `query` and descriptor field `s`, the
field-level matcher `matchesField` returns true iff either the pattern
equals the field exactly, or the pattern ends with the two-character suffix
`.*` and the field starts with the pattern with that suffix stripped; no
other inputs match. -/
theorem claim_C2_field_matcher (query s : Str) :
    matchesField query s = true ↔
      query = s ∨ (['.', '*'] <:+ query ∧ query.take (query.length - 2) <+: s) := by
  simp only [matchesField]
  split_ifs with h1 h2
  · simp [h1]
  · rw [List.isPrefixOf_iff_prefix]
    have hs := List.isSuffixOf_iff_suffix.mp h2
    simp [h1, hs]
  · have hs : ¬ (['.', '*'] <:+ query) := fun h => h2 (List.isSuffixOf_iff_suffix.mpr h)
    simp [h1, hs]

/-! ### Claim C3 -/

/-- Claim C3: in both variants, `Matches` holds iff each of the three query
pattern fields is empty or satisfies the pattern rule against the
corresponding descriptor field; the query's network (and, in V2, endpoints)
fields have no effect; and the all-empty query matches every descriptor. -/
theorem claim_C3_device_matcher :
    (∀ (pc : UPNPDevice) (q : V1.DeviceQuery),
      V1.Matches pc q = true ↔
        ((q.modelName = [] ∨ matchesField q.modelName pc.desc.modelName = true) ∧
         (q.manufacturer = [] ∨ matchesField q.manufacturer pc.desc.manufacturer = true) ∧
         (q.serialNumber = [] ∨ matchesField q.serialNumber pc.desc.serialNumber = true))) ∧
    (∀ (pc : UPNPDevice) (q : V2.DeviceQuery),
      V2.Matches pc q = true ↔
        ((q.modelName = [] ∨ matchesField q.modelName pc.desc.modelName = true) ∧
         (q.manufacturer = [] ∨ matchesField q.manufacturer pc.desc.manufacturer = true) ∧
         (q.serialNumber = [] ∨ matchesField q.serialNumber pc.desc.serialNumber = true))) ∧
    (∀ (pc : UPNPDevice) (q : V1.DeviceQuery) (n : Str),
      V1.Matches pc { q with network := n } = V1.Matches pc q) ∧
    (∀ (pc : UPNPDevice) (q : V2.DeviceQuery) (n : Str) (eps : List Str),
      V2.Matches pc { q with network := n, endpoints := eps } = V2.Matches pc q) ∧
    (∀ pc : UPNPDevice, V1.Matches pc {} = true) ∧
    (∀ pc : UPNPDevice, V2.Matches pc {} = true) :=
  ⟨v1_matches_iff, v2_matches_iff, v1_matches_network,
   v2_matches_network_endpoints, v1_matches_empty, v2_matches_empty⟩

/-! ### Network-set computation (claims C1 and C9) -/

/-- Specification-side helper: the distinct elements of a list, in order of
first appearance. -/
def distinctFirsts : List Str → List Str
  | [] => []
  | x :: xs => x :: distinctFirsts (xs.filter (fun y => y != x))
termination_by l => l.length
decreasing_by
  simp only [List.length_cons]
  exact Nat.lt_succ_of_le (List.length_filter_le _ _)

theorem not_contains_append_singleton (acc : List Str) (x a : Str) :
    (!(acc ++ [x]).contains a) = ((a != x) && !acc.contains a) := by
  by_cases h1 : a = x <;> by_cases h2 : a ∈ acc <;>
    simp [List.contains, List.elem_eq_mem, h1, h2, bne]

theorem v1_parseNetworks_go (qs : List V1.DeviceQuery) : ∀ acc : List Str,
    qs.foldl (fun networks query =>
        if networks.contains query.network then networks
        else networks ++ [query.network]) acc
      = acc ++ distinctFirsts
          ((qs.map (fun q => q.network)).filter (fun n => !acc.contains n)) := by
  induction qs with
  | nil => intro acc; simp [distinctFirsts]
  | cons q qs ih =>
    intro acc
    rw [List.foldl_cons, List.map_cons, List.filter_cons]
    by_cases hc : acc.contains q.network
    · simp only [hc, if_true, Bool.not_true, Bool.false_eq_true, if_false]
      exact ih acc
    · have hcb : acc.contains q.network = false := by
        cases h : acc.contains q.network
        · rfl
        · exact absurd h hc
      simp only [hcb, Bool.false_eq_true, if_false, Bool.not_false, if_true]
      rw [ih (acc ++ [q.network])]
      rw [List.append_assoc]
      congr 1
      rw [List.singleton_append, distinctFirsts]
      congr 1
      rw [List.filter_filter]
      congr 1
      apply List.filter_congr
      intro a _
      rw [not_contains_append_singleton]

theorem v1_parseNetworks_eq (qs : List V1.DeviceQuery) :
    V1.parseNetworks qs = distinctFirsts (qs.map (fun q => q.network)) := by
  unfold V1.parseNetworks
  rw [v1_parseNetworks_go qs []]
  simp [List.contains]

theorem v2_parseNetworks_nil (qs : List V2.DeviceQuery) :
    V2.parseNetworks qs = [] := by
  unfold V2.parseNetworks
  induction qs with
  | nil => rfl
  | cons q qs ih =>
    rw [List.foldl_cons]
    simpa using ih

/-- Claim C1 counterexample: in src/find.go a query with an empty `Network`
field does contribute the empty network to the computed set, and in
src/unnamed/part_000 the batch with networks `eth0, eth0, wlan0` computes
the empty network set, not `[eth0, wlan0]`. -/
theorem claim_C1_counterexample :
    V1.parseNetworks [{ network := [] }] ≠ [] ∧
    V2.parseNetworks
        [{ network := ['e', 't', 'h', '0'] }, { network := ['e', 't', 'h', '0'] },
         { network := ['w', 'l', 'a', 'n', '0'] }] ≠
      [['e', 't', 'h', '0'], ['w', 'l', 'a', 'n', '0']] := by
  decide

/-- Claim C1, amended: in src/find.go, `parseNetworks` returns the distinct
`Network` fields of the queries, each exactly once, in order of first
appearance, with no filtering of empty fields (an empty `Network`
contributes the empty string); in src/unnamed/part_000, `parseNetworks`
returns the empty list for every query batch. -/
theorem claim_C1_amended :
    (∀ qs : List V1.DeviceQuery,
      V1.parseNetworks qs = distinctFirsts (qs.map (fun q => q.network))) ∧
    (∀ qs : List V2.DeviceQuery, V2.parseNetworks qs = []) :=
  ⟨v1_parseNetworks_eq, v2_parseNetworks_nil⟩

/-- Claim C9: in src/unnamed/part_000, `parseNetworks` returns the empty
list for every query batch (the network is appended only when already
contained, which never first becomes true), so `findAll` without the
test-injection override iterates over no networks and returns an empty
device list. -/
theorem claim_C9_v2_parseNetworks_always_empty :
    (∀ qs : List V2.DeviceQuery, V2.parseNetworks qs = []) ∧
    (∀ (search : SearchType → Str → Except Str (List SsdpService))
       (readDesc : Str → Except Str DeviceDesc) (rootOnly : Bool)
       (qs : List V2.DeviceQuery),
      V2.findAll search readDesc none rootOnly (V2.parseNetworks qs) = .ok []) := by
  refine ⟨v2_parseNetworks_nil, ?_⟩
  intro search readDesc rootOnly qs
  rw [v2_parseNetworks_nil]
  rfl

/-! ### Generic fold helpers -/

theorem foldl_append_of_step {α β : Type} (f : List β → α → List β)
    (g : α → List β) (hf : ∀ acc x, f acc x = acc ++ g x) :
    ∀ (l : List α) (acc : List β), l.foldl f acc = acc ++ l.flatMap g := by
  intro l
  induction l with
  | nil => intro acc; simp
  | cons x xs ih =>
    intro acc
    rw [List.foldl_cons, hf, ih, List.flatMap_cons, List.append_assoc]

theorem foldl_filterMap {α β γ : Type} (g : α → Option β) (f : γ → β → γ) :
    ∀ (l : List α) (init : γ),
      (l.filterMap g).foldl f init =
        l.foldl (fun acc x => match g x with | none => acc | some b => f acc b) init := by
  intro l
  induction l with
  | nil => intro init; rfl
  | cons x xs ih =>
    intro init
    rw [List.filterMap_cons]
    cases hx : g x with
    | none => rw [List.foldl_cons, hx, ih]
    | some b => rw [List.foldl_cons, List.foldl_cons, hx, ih]

theorem foldl_flatMap {α β γ : Type} (g : α → List β) (f : γ → β → γ) :
    ∀ (l : List α) (init : γ),
      (l.flatMap g).foldl f init =
        l.foldl (fun acc x => (g x).foldl f acc) init := by
  intro l
  induction l with
  | nil => intro init; rfl
  | cons x xs ih =>
    intro init
    rw [List.flatMap_cons, List.foldl_append, List.foldl_cons, ih]

/-- The list carried by an `Except` result, empty on error. -/
def exceptList {α : Type} : Except Str (List α) → List α
  | .ok l => l
  | .error _ => []

/-! ### Claim C6: descriptor-fetch failures only drop their advertisement -/

/-- The advertisements of a search, resolved one by one: an advertisement
whose descriptor fetch fails is dropped, every other one yields its device
record. -/
def resolvedList (readDesc : Str → Except Str DeviceDesc)
    (list : List SsdpService) : List UPNPDevice :=
  list.filterMap (fun srv =>
    match readDesc srv.location with
    | .error _ => none
    | .ok desc => some ⟨srv, desc⟩)

theorem resolveServicesFrom_eq (readDesc : Str → Except Str DeviceDesc)
    (list : List SsdpService) : ∀ acc : List UPNPDevice,
    resolveServicesFrom readDesc acc list = acc ++ resolvedList readDesc list := by
  induction list with
  | nil => intro acc; simp [resolveServicesFrom, resolvedList]
  | cons srv rest ih =>
    intro acc
    unfold resolveServicesFrom resolvedList at ih ⊢
    rw [List.foldl_cons, List.filterMap_cons]
    cases h : readDesc srv.location with
    | error e =>
      dsimp only
      exact ih acc
    | ok desc =>
      dsimp only
      rw [ih (acc ++ [UPNPDevice.mk srv desc]), List.append_assoc, List.singleton_append]

theorem v2_findAllGo_ok (search : SearchType → Str → Except Str (List SsdpService))
    (readDesc : Str → Except Str DeviceDesc) (st : SearchType) :
    ∀ (networks : List Str) (acc : List UPNPDevice),
      (∀ n ∈ networks, (search st n).isOk) →
      V2.findAllGo search readDesc st networks acc =
        .ok (acc ++ networks.flatMap (fun n => resolvedList readDesc (exceptList (search st n)))) := by
  intro networks
  induction networks with
  | nil => intro acc _; simp [V2.findAllGo]
  | cons n rest ih =>
    intro acc hok
    have hn : (search st n).isOk := hok n (List.mem_cons_self n rest)
    cases hsn : search st n with
    | error e => rw [hsn] at hn; simp [Except.isOk, Except.toBool] at hn
    | ok list =>
      rw [V2.findAllGo, hsn]
      dsimp only
      rw [ih _ (fun m hm => hok m (List.mem_cons_of_mem n hm))]
      rw [resolveServicesFrom_eq]
      rw [List.flatMap_cons, hsn]
      simp [exceptList]

/-- Claim C6: for a successful search, a descriptor-fetch failure only drops
that one advertisement: in both variants `findAll` returns, without error,
exactly the device records of the advertisements whose descriptor resolves
(V1 for the one searched network, V2 for the whole network list when every
search succeeds). -/
theorem claim_C6_fetch_failure_isolated :
    (∀ (search : SearchType → Str → Except Str (List SsdpService))
       (readDesc : Str → Except Str DeviceDesc) (rootOnly : Bool)
       (network : Str) (list : List SsdpService),
      search (if rootOnly then .rootDevice else .all) network = .ok list →
      V1.findAll search readDesc none rootOnly network = .ok (resolvedList readDesc list)) ∧
    (∀ (search : SearchType → Str → Except Str (List SsdpService))
       (readDesc : Str → Except Str DeviceDesc) (rootOnly : Bool)
       (networks : List Str),
      (∀ n ∈ networks, (search (if rootOnly then SearchType.rootDevice else SearchType.all) n).isOk) →
      V2.findAll search readDesc none rootOnly networks =
        .ok (networks.flatMap (fun n =>
          resolvedList readDesc
            (exceptList (search (if rootOnly then SearchType.rootDevice else SearchType.all) n))))) := by
  constructor
  · intro search readDesc rootOnly network list h
    unfold V1.findAll
    rw [h]
    dsimp only
    rw [resolveServicesFrom_eq]
    rw [List.nil_append]
  · intro search readDesc rootOnly networks h
    unfold V2.findAll
    rw [v2_findAllGo_ok search readDesc _ networks [] h]
    rw [List.nil_append]

/-- Concrete run of claim C6's V1 statement: of two advertisements, the one
whose descriptor fetch fails is dropped, the other still resolves. -/
theorem claim_C6_witness :
    V1.findAll (fun _ _ => .ok [⟨[], ['a']⟩, ⟨[], ['b']⟩])
        (fun loc => if loc = ['a'] then .error ['E'] else .ok {}) none false []
      = .ok [⟨⟨[], ['b']⟩, {}⟩] := by
  have h := claim_C6_fetch_failure_isolated.1
    (fun _ _ => .ok [⟨[], ['a']⟩, ⟨[], ['b']⟩])
    (fun loc => if loc = ['a'] then .error ['E'] else .ok {})
    false [] [⟨[], ['a']⟩, ⟨[], ['b']⟩] rfl
  rw [h]
  rfl

/-! ### Claim C5: search failure is fatal and yields no partial result -/

theorem v1_findHostGo_fail (f : Str → Except Str (List UPNPDevice))
    (pu : Str → Option Str) (qs : List V1.DeviceQuery) :
    ∀ (pre : List Str) (n : Str) (post : List Str) (e : Str)
      (acc : List Str × List (Str × V1.DeviceQuery)),
      (∀ m ∈ pre, (f m).isOk) → f n = .error e →
      V1.FindHostGo f pu qs (pre ++ n :: post) acc = ([], none, some (.searchErr e)) := by
  intro pre
  induction pre with
  | nil =>
    intro n post e acc _ hn
    rw [List.nil_append, V1.FindHostGo, hn]
  | cons m pre ih =>
    intro n post e acc hpre hn
    have hm : (f m).isOk := hpre m (List.mem_cons_self m pre)
    cases hfm : f m with
    | error e2 => rw [hfm] at hm; simp [Except.isOk, Except.toBool] at hm
    | ok l =>
      rw [List.cons_append, V1.FindHostGo, hfm]
      dsimp only
      exact ih n post e _ (fun x hx => hpre x (List.mem_cons_of_mem m hx)) hn

theorem v2_findAllGo_fail (search : SearchType → Str → Except Str (List SsdpService))
    (readDesc : Str → Except Str DeviceDesc) (st : SearchType) :
    ∀ (pre : List Str) (n : Str) (post : List Str) (e : Str) (acc : List UPNPDevice),
      (∀ m ∈ pre, (search st m).isOk) → search st n = .error e →
      V2.findAllGo search readDesc st (pre ++ n :: post) acc = .error e := by
  intro pre
  induction pre with
  | nil =>
    intro n post e acc _ hn
    rw [List.nil_append, V2.findAllGo, hn]
  | cons m pre ih =>
    intro n post e acc hpre hn
    have hm : (search st m).isOk := hpre m (List.mem_cons_self m pre)
    cases hfm : search st m with
    | error e2 => rw [hfm] at hm; simp [Except.isOk, Except.toBool] at hm
    | ok l =>
      rw [List.cons_append, V2.findAllGo, hfm]
      dsimp only
      exact ih n post e _ (fun x hx => hpre x (List.mem_cons_of_mem m hx)) hn

/-- Claim C5: if the discovery search for a network of the computed network
set fails (every earlier network's search having succeeded), V1's `FindHost`
returns exactly that error with an empty hostname list and no map, and V2's
`findAll` loop aborts with exactly that error, producing no device list. -/
theorem claim_C5_search_failure_fatal :
    (∀ (search : SearchType → Str → Except Str (List SsdpService))
       (readDesc : Str → Except Str DeviceDesc) (parseURL : Str → Option Str)
       (testInject : Option (List UPNPDevice)) (qs : List V1.DeviceQuery)
       (rootOnly : Bool) (pre : List Str) (n : Str) (post : List Str) (e : Str),
      V1.parseNetworks qs = pre ++ n :: post →
      (∀ m ∈ pre, (V1.findAll search readDesc testInject rootOnly m).isOk) →
      V1.findAll search readDesc testInject rootOnly n = .error e →
      V1.FindHost search readDesc parseURL testInject qs rootOnly
        = ([], none, some (.searchErr e))) ∧
    (∀ (search : SearchType → Str → Except Str (List SsdpService))
       (readDesc : Str → Except Str DeviceDesc) (rootOnly : Bool)
       (pre : List Str) (n : Str) (post : List Str) (e : Str),
      (∀ m ∈ pre, (search (if rootOnly then SearchType.rootDevice else SearchType.all) m).isOk) →
      search (if rootOnly then SearchType.rootDevice else SearchType.all) n = .error e →
      V2.findAll search readDesc none rootOnly (pre ++ n :: post) = .error e) := by
  constructor
  · intro search readDesc parseURL testInject qs rootOnly pre n post e hparse hpre hn
    unfold V1.FindHost
    rw [hparse]
    exact v1_findHostGo_fail _ parseURL qs pre n post e ([], []) hpre hn
  · intro search readDesc rootOnly pre n post e hpre hn
    unfold V2.findAll
    exact v2_findAllGo_fail search readDesc _ pre n post e [] hpre hn

/-- Concrete run of claim C5: a failing search on the single computed
network makes V1's `FindHost` return the search error with no hostnames,
and aborts V2's `findAll`. -/
theorem claim_C5_witness :
    V1.FindHost (fun _ _ => .error ['E']) (fun _ => .ok {}) (fun _ => none) none
        [{ network := ['x'] }] false = ([], none, some (.searchErr ['E'])) ∧
    V2.findAll (fun _ _ => .error ['E']) (fun _ => .ok {}) none false [['x']]
      = .error ['E'] := by
  constructor
  · exact claim_C5_search_failure_fatal.1 (fun _ _ => .error ['E']) (fun _ => .ok {})
      (fun _ => none) none [{ network := ['x'] }] false [] ['x'] [] ['E']
      rfl (by simp) rfl
  · exact claim_C5_search_failure_fatal.2 (fun _ _ => .error ['E']) (fun _ => .ok {})
      false [] ['x'] [] ['E'] (by simp) rfl

/-! ### Claim C10: only HTTP status exactly 200 is a successful fetch -/

/-- Claim C10: whenever the request is built and the response arrives with
a status code other than 200 (201 and 204 included), `readDeviceDesc`
returns no descriptor and the error carrying the URL and that status; and
whenever `readDeviceDesc` returns no error, the descriptor it returns is
non-nil. -/
theorem claim_C10_status_200_only :
    (∀ (newRequest : Str → Except Str Unit) (doRequest : Str → Except Str HttpResponse)
       (readAll : Str → Except Str Str) (unmarshal : Str → Except Str DeviceDesc)
       (url : Str) (resp : HttpResponse),
      newRequest url = .ok () → doRequest url = .ok resp → resp.statusCode ≠ 200 →
      readDeviceDesc newRequest doRequest readAll unmarshal url
        = (none, some (.statusNotOk url resp.statusCode))) ∧
    (∀ (newRequest : Str → Except Str Unit) (doRequest : Str → Except Str HttpResponse)
       (readAll : Str → Except Str Str) (unmarshal : Str → Except Str DeviceDesc)
       (url : Str),
      (readDeviceDesc newRequest doRequest readAll unmarshal url).2 = none →
      (readDeviceDesc newRequest doRequest readAll unmarshal url).1.isSome = true) := by
  constructor
  · intro newRequest doRequest readAll unmarshal url resp hreq hdo hst
    unfold readDeviceDesc
    rw [hreq, hdo]
    dsimp only
    rw [if_pos hst]
  · intro newRequest doRequest readAll unmarshal url
    unfold readDeviceDesc
    cases newRequest url with
    | error e => intro h; simp at h
    | ok u =>
      dsimp only
      cases doRequest url with
      | error e => intro h; simp at h
      | ok resp =>
        dsimp only
        by_cases hst : resp.statusCode ≠ 200
        · rw [if_pos hst]; intro h; simp at h
        · rw [if_neg hst]
          cases readAll resp.body with
          | error e => intro h; simp at h
          | ok data =>
            dsimp only
            unfold parseDeviceDesc
            cases unmarshal data with
            | error e => intro h; simp at h
            | ok desc => intro _; rfl

/-- Concrete run of claim C10: a 201 response yields the status error and no
descriptor, and an error-free fetch carries a non-nil descriptor. -/
theorem claim_C10_witness :
    readDeviceDesc (fun _ => .ok ()) (fun _ => .ok ⟨201, []⟩) (fun b => .ok b)
        (fun _ => .ok {}) ['u'] = (none, some (.statusNotOk ['u'] 201)) ∧
    (readDeviceDesc (fun _ => .ok ()) (fun _ => .ok ⟨200, []⟩) (fun b => .ok b)
        (fun _ => .ok {}) ['u']).1.isSome = true := by
  constructor
  · exact claim_C10_status_200_only.1 (fun _ => .ok ()) (fun _ => .ok ⟨201, []⟩)
      (fun b => .ok b) (fun _ => .ok {}) ['u'] ⟨201, []⟩ rfl rfl (by decide)
  · exact claim_C10_status_200_only.2 (fun _ => .ok ()) (fun _ => .ok ⟨200, []⟩)
      (fun b => .ok b) (fun _ => .ok {}) ['u'] rfl

/-! ### Claim C8: endpoint expansion in the V2 `FindHost` -/

/-- The result entries one (device, query) pair contributes in the V2
`FindHost` loop: nothing unless the query matches and the location URL
parses; then one `hostname/endpoint` entry per endpoint suffix when the
query has endpoints, and the bare hostname otherwise. -/
def hostEntries (parseURL : Str → Option Str) (a : UPNPDevice)
    (query : V2.DeviceQuery) : List Str :=
  if V2.Matches a query then
    match parseURL a.service.location with
    | none => []
    | some host =>
      if 0 < query.endpoints.length then
        query.endpoints.map (fun endpoint => host ++ '/' :: endpoint)
      else [host]
  else []

theorem v2_hostStep_eq (parseURL : Str → Option Str) (a : UPNPDevice)
    (hostnames : List Str) (query : V2.DeviceQuery) :
    V2.hostStep parseURL a hostnames query = hostnames ++ hostEntries parseURL a query := by
  unfold V2.hostStep hostEntries
  by_cases hm : V2.Matches a query = true
  · rw [if_pos hm, if_pos hm]
    cases parseURL a.service.location with
    | none => simp
    | some host =>
      dsimp only
      by_cases he : 0 < query.endpoints.length
      · rw [if_pos he, if_pos he]
      · rw [if_neg he, if_neg he]
  · rw [if_neg hm, if_neg hm]
    simp

/-- All result entries of the V2 `FindHost` loop, device-major and
query-minor. -/
def expandedHosts (parseURL : Str → Option Str) (queries : List V2.DeviceQuery)
    (devs : List UPNPDevice) : List Str :=
  devs.flatMap (fun a => queries.flatMap (fun query => hostEntries parseURL a query))

theorem v2_hostfold_eq (parseURL : Str → Option Str) (queries : List V2.DeviceQuery)
    (all : List UPNPDevice) :
    all.foldl (fun hostnames a => queries.foldl (V2.hostStep parseURL a) hostnames) []
      = expandedHosts parseURL queries all := by
  have hinner : ∀ (a : UPNPDevice) (acc : List Str),
      queries.foldl (V2.hostStep parseURL a) acc
        = acc ++ queries.flatMap (fun query => hostEntries parseURL a query) :=
    fun a acc =>
      foldl_append_of_step _ _ (fun acc q => v2_hostStep_eq parseURL a acc q) queries acc
  rw [foldl_append_of_step
      (fun hostnames a => queries.foldl (V2.hostStep parseURL a) hostnames)
      (fun a => queries.flatMap (fun query => hostEntries parseURL a query))
      (fun acc a => hinner a acc) all []]
  rw [List.nil_append]
  rfl

/-- Claim C8: the V2 `FindHost` result is exactly the device-major,
query-minor concatenation of per-match entries, where a match by a query
with a non-empty endpoint list contributes one `hostname/endpoint` entry per
endpoint suffix and never the bare hostname. -/
theorem claim_C8_endpoint_expansion :
    (∀ (search : SearchType → Str → Except Str (List SsdpService))
       (readDesc : Str → Except Str DeviceDesc) (parseURL : Str → Option Str)
       (devs : List UPNPDevice) (qs : List V2.DeviceQuery) (rootOnly : Bool),
      V2.FindHost search readDesc parseURL (some devs) qs rootOnly =
        if 0 < (expandedHosts parseURL qs devs).length
        then (expandedHosts parseURL qs devs, none)
        else ([], some (.noMatch qs))) ∧
    (∀ (parseURL : Str → Option Str) (a : UPNPDevice) (q : V2.DeviceQuery) (host : Str),
      V2.Matches a q = true → parseURL a.service.location = some host →
      0 < q.endpoints.length →
      hostEntries parseURL a q = q.endpoints.map (fun endpoint => host ++ '/' :: endpoint) ∧
      host ∉ hostEntries parseURL a q) := by
  constructor
  · intro search readDesc parseURL devs qs rootOnly
    unfold V2.FindHost V2.findAll
    dsimp only
    rw [v2_hostfold_eq]
  · intro parseURL a q host hm hp he
    have hent : hostEntries parseURL a q
        = q.endpoints.map (fun endpoint => host ++ '/' :: endpoint) := by
      unfold hostEntries
      rw [if_pos hm, hp]
      dsimp only
      rw [if_pos he]
    refine ⟨hent, ?_⟩
    rw [hent]
    intro hmem
    obtain ⟨endpoint, _, heq⟩ := List.mem_map.mp hmem
    have hlen := congrArg List.length heq
    simp [List.length_append] at hlen

/-- Concrete run of claim C8: a query with endpoints `a` and `b` matching a
device at hostname `cam1` contributes `cam1/a` and `cam1/b` but not bare
`cam1`. -/
theorem claim_C8_witness :
    hostEntries (fun loc => some loc) ⟨⟨[], ['c', 'a', 'm', '1']⟩, {}⟩
        { endpoints := [['a'], ['b']] }
      = [['c', 'a', 'm', '1', '/', 'a'], ['c', 'a', 'm', '1', '/', 'b']] ∧
    ['c', 'a', 'm', '1'] ∉
      hostEntries (fun loc => some loc) ⟨⟨[], ['c', 'a', 'm', '1']⟩, {}⟩
        { endpoints := [['a'], ['b']] } := by
  have h := claim_C8_endpoint_expansion.2 (fun loc => some loc)
    ⟨⟨[], ['c', 'a', 'm', '1']⟩, {}⟩ { endpoints := [['a'], ['b']] }
    ['c', 'a', 'm', '1'] (by decide) rfl (by decide)
  exact ⟨by rw [h.1]; rfl, h.2⟩

/-! ### The V1 result set (claims C4 and C7) -/

/-- All devices produced by the per-network `findAll` calls, in network
order (a network whose search fails contributes nothing; it is only used
under the hypothesis that every search succeeded). -/
def allDevices (findAllFn : Str → Except Str (List UPNPDevice))
    (networks : List Str) : List UPNPDevice :=
  networks.flatMap (fun n => exceptList (findAllFn n))

/-- The candidate `(hostname, query)` pair one (device, query) combination
contributes in the V1 `FindHost` loop: present iff the query matches and
the location URL parses. -/
def candidateOf (parseURL : Str → Option Str) (a : UPNPDevice)
    (query : V1.DeviceQuery) : Option (Str × V1.DeviceQuery) :=
  if V1.Matches a query then
    (parseURL a.service.location).map (fun host => (host, query))
  else none

/-- All candidate pairs, device-major and query-minor. -/
def candidatePairs (parseURL : Str → Option Str) (queries : List V1.DeviceQuery)
    (devs : List UPNPDevice) : List (Str × V1.DeviceQuery) :=
  devs.flatMap (fun a => queries.filterMap (fun query => candidateOf parseURL a query))

/-- The deduplicating accumulation step of the V1 `FindHost` loop: a
hostname already present is skipped entirely, a new one is appended
together with its query. -/
def insertPair (acc : List Str × List (Str × V1.DeviceQuery))
    (p : Str × V1.DeviceQuery) : List Str × List (Str × V1.DeviceQuery) :=
  if acc.1.contains p.1 then acc else (acc.1 ++ [p.1], acc.2 ++ [p])

/-- The terminal check of the V1 `FindHost`. -/
def finishAcc (qs : List V1.DeviceQuery)
    (acc : List Str × List (Str × V1.DeviceQuery)) :
    List Str × Option (List (Str × V1.DeviceQuery)) × Option V1.FindErr :=
  if 0 < acc.1.length then (acc.1, some acc.2, none)
  else ([], none, some (.noMatch qs))

theorem v1_applyQueryStep_eq (parseURL : Str → Option Str) (a : UPNPDevice)
    (acc : List Str × List (Str × V1.DeviceQuery)) (query : V1.DeviceQuery) :
    V1.applyQueryStep parseURL a acc query =
      match candidateOf parseURL a query with
      | none => acc
      | some p => insertPair acc p := by
  unfold V1.applyQueryStep candidateOf insertPair
  by_cases hm : V1.Matches a query = true
  · rw [if_pos hm, if_pos hm]
    cases parseURL a.service.location with
    | none => rfl
    | some host => rfl
  · rw [if_neg hm, if_neg hm]

theorem v1_deviceStep_eq (parseURL : Str → Option Str) (queries : List V1.DeviceQuery)
    (acc : List Str × List (Str × V1.DeviceQuery)) (a : UPNPDevice) :
    V1.deviceStep parseURL queries acc a =
      (queries.filterMap (fun query => candidateOf parseURL a query)).foldl insertPair acc := by
  unfold V1.deviceStep
  have hfun : V1.applyQueryStep parseURL a =
      (fun acc query =>
        match candidateOf parseURL a query with
        | none => acc
        | some p => insertPair acc p) := by
    funext acc query
    exact v1_applyQueryStep_eq parseURL a acc query
  rw [hfun, foldl_filterMap]
  congr 1
  funext acc query
  cases candidateOf parseURL a query with
  | none => rfl
  | some p => rfl

theorem v1_devicesFold_eq (parseURL : Str → Option Str) (queries : List V1.DeviceQuery)
    (all : List UPNPDevice) (acc : List Str × List (Str × V1.DeviceQuery)) :
    all.foldl (V1.deviceStep parseURL queries) acc =
      (candidatePairs parseURL queries all).foldl insertPair acc := by
  have hfun : V1.deviceStep parseURL queries =
      (fun acc a =>
        (queries.filterMap (fun query => candidateOf parseURL a query)).foldl insertPair acc) := by
    funext acc a
    exact v1_deviceStep_eq parseURL queries acc a
  rw [hfun]
  unfold candidatePairs
  rw [foldl_flatMap]

theorem v1_findHostGo_ok (f : Str → Except Str (List UPNPDevice))
    (pu : Str → Option Str) (qs : List V1.DeviceQuery) :
    ∀ (networks : List Str) (acc : List Str × List (Str × V1.DeviceQuery)),
      (∀ n ∈ networks, (f n).isOk) →
      V1.FindHostGo f pu qs networks acc =
        finishAcc qs ((candidatePairs pu qs (allDevices f networks)).foldl insertPair acc) := by
  intro networks
  induction networks with
  | nil =>
    intro acc _
    rw [V1.FindHostGo]
    simp [allDevices, candidatePairs, finishAcc]
  | cons n rest ih =>
    intro acc hok
    have hn : (f n).isOk := hok n (List.mem_cons_self n rest)
    cases hfn : f n with
    | error e => rw [hfn] at hn; simp [Except.isOk, Except.toBool] at hn
    | ok l =>
      rw [V1.FindHostGo, hfn]
      dsimp only
      rw [ih _ (fun m hm => hok m (List.mem_cons_of_mem n hm))]
      rw [v1_devicesFold_eq]
      unfold allDevices
      rw [List.flatMap_cons, hfn]
      unfold candidatePairs
      rw [List.flatMap_append, List.foldl_append]
      rfl

theorem v1_findHostGo_someMap (f : Str → Except Str (List UPNPDevice))
    (pu : Str → Option Str) (qs : List V1.DeviceQuery) :
    ∀ (networks : List Str) (acc : List Str × List (Str × V1.DeviceQuery))
      (hs : List Str) (mm : List (Str × V1.DeviceQuery)) (e : Option V1.FindErr),
      V1.FindHostGo f pu qs networks acc = (hs, some mm, e) →
      ∀ n ∈ networks, (f n).isOk := by
  intro networks
  induction networks with
  | nil => intro acc hs mm e _ n hn; simp at hn
  | cons n rest ih =>
    intro acc hs mm e hEq m hm
    cases hfn : f n with
    | error e2 =>
      rw [V1.FindHostGo, hfn] at hEq
      dsimp only at hEq
      simp [Prod.ext_iff] at hEq
    | ok l =>
      rw [V1.FindHostGo, hfn] at hEq
      dsimp only at hEq
      rcases List.mem_cons.mp hm with rfl | hm2
      · rw [hfn]; rfl
      · exact ih _ hs mm e hEq m hm2

theorem v1_findHostGo_noneMap (f : Str → Except Str (List UPNPDevice))
    (pu : Str → Option Str) (qs : List V1.DeviceQuery) :
    ∀ (networks : List Str) (acc : List Str × List (Str × V1.DeviceQuery))
      (hs : List Str) (e : Option V1.FindErr),
      V1.FindHostGo f pu qs networks acc = (hs, none, e) → hs = [] := by
  intro networks
  induction networks with
  | nil =>
    intro acc hs e hEq
    rw [V1.FindHostGo] at hEq
    by_cases hl : 0 < acc.1.length
    · rw [if_pos hl] at hEq
      simp [Prod.ext_iff] at hEq
    · rw [if_neg hl] at hEq
      exact (Prod.ext_iff.mp hEq).1.symm
  | cons n rest ih =>
    intro acc hs e hEq
    cases hfn : f n with
    | error e2 =>
      rw [V1.FindHostGo, hfn] at hEq
      exact (Prod.ext_iff.mp hEq).1.symm
    | ok l =>
      rw [V1.FindHostGo, hfn] at hEq
      dsimp only at hEq
      exact ih _ hs e hEq

theorem v1_findHostGo_err_iff (f : Str → Except Str (List UPNPDevice))
    (pu : Str → Option Str) (qs : List V1.DeviceQuery) :
    ∀ (networks : List Str) (acc : List Str × List (Str × V1.DeviceQuery))
      (hs : List Str) (m : Option (List (Str × V1.DeviceQuery))) (e : Option V1.FindErr),
      V1.FindHostGo f pu qs networks acc = (hs, m, e) → (e = none ↔ hs ≠ []) := by
  intro networks
  induction networks with
  | nil =>
    intro acc hs m e hEq
    rw [V1.FindHostGo] at hEq
    by_cases hl : 0 < acc.1.length
    · rw [if_pos hl] at hEq
      obtain ⟨h1, _, h3⟩ : acc.1 = hs ∧ _ ∧ (none : Option V1.FindErr) = e := by
        simpa [Prod.ext_iff] using hEq
      constructor
      · intro _; rw [← h1]; exact List.length_pos.mp hl
      · intro _; exact h3.symm
    · rw [if_neg hl] at hEq
      obtain ⟨h1, _, h3⟩ : ([] : List Str) = hs ∧ _ ∧
          (some (V1.FindErr.noMatch qs) : Option V1.FindErr) = e := by
        simpa [Prod.ext_iff] using hEq
      constructor
      · intro he; rw [he] at h3; simp at h3
      · intro hne; exact absurd h1.symm hne
  | cons n rest ih =>
    intro acc hs m e hEq
    cases hfn : f n with
    | error e2 =>
      rw [V1.FindHostGo, hfn] at hEq
      obtain ⟨h1, _, h3⟩ : ([] : List Str) = hs ∧ _ ∧
          (some (V1.FindErr.searchErr e2) : Option V1.FindErr) = e := by
        simpa [Prod.ext_iff] using hEq
      constructor
      · intro he; rw [he] at h3; simp at h3
      · intro hne; exact absurd h1.symm hne
    | ok l =>
      rw [V1.FindHostGo, hfn] at hEq
      dsimp only at hEq
      exact ih _ hs m e hEq

theorem v1_insertFold_keys (cands : List (Str × V1.DeviceQuery)) :
    ∀ acc : List Str × List (Str × V1.DeviceQuery),
      acc.2.map Prod.fst = acc.1 →
      ((cands.foldl insertPair acc).2.map Prod.fst = (cands.foldl insertPair acc).1) := by
  induction cands with
  | nil => intro acc h; exact h
  | cons p rest ih =>
    intro acc h
    rw [List.foldl_cons]
    apply ih
    unfold insertPair
    by_cases hc : acc.1.contains p.1 = true
    · rw [if_pos hc]; exact h
    · rw [if_neg hc]
      dsimp only
      rw [List.map_append, h]
      rfl

theorem v1_insertFold_nodup (cands : List (Str × V1.DeviceQuery)) :
    ∀ acc : List Str × List (Str × V1.DeviceQuery),
      acc.1.Nodup → (cands.foldl insertPair acc).1.Nodup := by
  induction cands with
  | nil => intro acc h; exact h
  | cons p rest ih =>
    intro acc h
    rw [List.foldl_cons]
    apply ih
    unfold insertPair
    by_cases hc : acc.1.contains p.1 = true
    · rw [if_pos hc]; exact h
    · rw [if_neg hc]
      dsimp only
      have hmem : p.1 ∉ acc.1 := by
        intro hm
        apply hc
        simp [List.contains, List.elem_eq_mem, hm]
      simp [List.nodup_append, h, hmem]

theorem lookup_append_str {β : Type} (l₁ l₂ : List (Str × β)) (k : Str) :
    (l₁ ++ l₂).lookup k =
      match l₁.lookup k with
      | some v => some v
      | none => l₂.lookup k := by
  induction l₁ with
  | nil => rw [List.nil_append, List.lookup_nil]
  | cons p l₁ ih =>
    obtain ⟨a, b⟩ := p
    rw [List.cons_append, List.lookup_cons, List.lookup_cons]
    cases k == a with
    | true => rfl
    | false => exact ih

theorem lookup_isSome_keys {β : Type} (l : List (Str × β)) (k : Str) :
    (l.lookup k).isSome = true ↔ k ∈ l.map Prod.fst := by
  induction l with
  | nil => simp
  | cons p l ih =>
    obtain ⟨a, b⟩ := p
    rw [List.lookup_cons]
    by_cases hk : k = a
    · subst hk
      rw [beq_self_eq_true]
      dsimp only
      simp only [Option.isSome_some, List.map_cons, List.mem_cons, true_iff]
      exact Or.inl trivial
    · have hkb : (k == a) = false := by simp [hk]
      rw [hkb]
      dsimp only
      rw [ih]
      simp only [List.map_cons, List.mem_cons]
      constructor
      · exact fun h2 => Or.inr h2
      · rintro (rfl | h2)
        · exact absurd rfl hk
        · exact h2

theorem v1_insertFold_lookup (cands : List (Str × V1.DeviceQuery)) :
    ∀ acc : List Str × List (Str × V1.DeviceQuery),
      acc.2.map Prod.fst = acc.1 →
      ∀ h : Str,
        ((cands.foldl insertPair acc).2.lookup h) =
          (match acc.2.lookup h with
           | some v => some v
           | none => (cands.find? (fun p => p.1 == h)).map Prod.snd) := by
  induction cands with
  | nil =>
    intro acc hk h
    rw [List.foldl_nil, List.find?_nil]
    cases hl : acc.2.lookup h with
    | none => rfl
    | some v => rfl
  | cons p rest ih =>
    intro acc hk h
    rw [List.foldl_cons, List.find?_cons]
    by_cases hc : acc.1.contains p.1 = true
    · have hip : insertPair acc p = acc := by
        unfold insertPair
        rw [if_pos hc]
      rw [hip, ih acc hk h]
      by_cases hph : (p.1 == h) = true
      · have hhp : h = p.1 := (eq_of_beq hph).symm
        have hmem : h ∈ acc.2.map Prod.fst := by
          rw [hk, hhp]
          simpa [List.contains, List.elem_eq_mem] using hc
        have hsome := (lookup_isSome_keys acc.2 h).mpr hmem
        obtain ⟨v, hv⟩ := Option.isSome_iff_exists.mp hsome
        rw [hv, hph]
      · have hphf : (p.1 == h) = false := by
          simpa only [Bool.not_eq_true] using hph
        rw [hphf]
    · have hip : insertPair acc p = (acc.1 ++ [p.1], acc.2 ++ [p]) := by
        unfold insertPair
        rw [if_neg hc]
      have hk2 : (acc.2 ++ [p]).map Prod.fst = acc.1 ++ [p.1] := by
        rw [List.map_append, hk]
        rfl
      rw [hip, ih (acc.1 ++ [p.1], acc.2 ++ [p]) hk2 h]
      dsimp only
      rw [lookup_append_str]
      cases hl : acc.2.lookup h with
      | some v => rfl
      | none =>
        dsimp only
        obtain ⟨pa, pb⟩ := p
        rw [List.lookup_cons, List.lookup_nil]
        by_cases hph : h = pa
        · subst hph
          rw [beq_self_eq_true]
          rfl
        · have h1 : (h == pa) = false := by simp [hph]
          have h2 : (pa == h) = false := by
            have hne : pa ≠ h := fun e => hph e.symm
            simp [hne]
          rw [h1, h2]

/-- Claim C7: in src/find.go, a returned hostname list never contains two
equal strings, and the returned map associates each hostname with the first
query, in device-major query-minor order over the successfully searched
networks, that matched a device at that hostname; a hostname already
present is never re-added and its query never overwritten. -/
theorem claim_C7_hostnames_nodup_first_query
    (search : SearchType → Str → Except Str (List SsdpService))
    (readDesc : Str → Except Str DeviceDesc) (parseURL : Str → Option Str)
    (testInject : Option (List UPNPDevice)) (qs : List V1.DeviceQuery)
    (rootOnly : Bool) (hs : List Str)
    (m : Option (List (Str × V1.DeviceQuery))) (e : Option V1.FindErr) :
    V1.FindHost search readDesc parseURL testInject qs rootOnly = (hs, m, e) →
      hs.Nodup ∧
      (∀ mm, m = some mm → ∀ h : Str,
        mm.lookup h =
          ((candidatePairs parseURL qs
              (allDevices (V1.findAll search readDesc testInject rootOnly)
                (V1.parseNetworks qs))).find? (fun p => p.1 == h)).map Prod.snd) := by
  intro hEq
  unfold V1.FindHost at hEq
  cases m with
  | none =>
    refine ⟨?_, ?_⟩
    · rw [v1_findHostGo_noneMap _ parseURL qs _ _ hs e hEq]
      exact List.nodup_nil
    · intro mm hmm
      exact absurd hmm (by simp)
  | some mm0 =>
    have hok := v1_findHostGo_someMap _ parseURL qs _ _ hs mm0 e hEq
    rw [v1_findHostGo_ok _ parseURL qs _ _ hok] at hEq
    unfold finishAcc at hEq
    by_cases hlen :
        0 < ((candidatePairs parseURL qs
          (allDevices (V1.findAll search readDesc testInject rootOnly)
            (V1.parseNetworks qs))).foldl insertPair ([], [])).1.length
    · rw [if_pos hlen] at hEq
      obtain ⟨h1, h2, h3⟩ :
          ((candidatePairs parseURL qs
            (allDevices (V1.findAll search readDesc testInject rootOnly)
              (V1.parseNetworks qs))).foldl insertPair ([], [])).1 = hs ∧
          some ((candidatePairs parseURL qs
            (allDevices (V1.findAll search readDesc testInject rootOnly)
              (V1.parseNetworks qs))).foldl insertPair ([], [])).2 = some mm0 ∧
          (none : Option V1.FindErr) = e := by
        simpa [Prod.ext_iff] using hEq
      refine ⟨?_, ?_⟩
      · rw [← h1]
        exact v1_insertFold_nodup _ ([], []) List.nodup_nil
      · intro mm hmm h
        have hmm0 : mm = ((candidatePairs parseURL qs
            (allDevices (V1.findAll search readDesc testInject rootOnly)
              (V1.parseNetworks qs))).foldl insertPair ([], [])).2 := by
          exact (Option.some.inj (h2.trans hmm)).symm
        rw [hmm0, v1_insertFold_lookup _ ([], []) rfl h]
        rw [List.lookup_nil]
    · rw [if_neg hlen] at hEq
      simp [Prod.ext_iff] at hEq

/-- Concrete run of claim C7: one injected device matching the all-empty
query yields a deduplicated singleton hostname list whose map entry is the
first matching candidate pair. -/
theorem claim_C7_witness :
    ([['h']] : List Str).Nodup ∧
    List.lookup ['h'] [((['h'] : Str), ({} : V1.DeviceQuery))] =
      ((candidatePairs (fun loc => some loc) [{}]
          (allDevices
            (V1.findAll (fun _ _ => .ok []) (fun _ => .ok {})
              (some [⟨⟨[], ['h']⟩, {}⟩]) false)
            (V1.parseNetworks [{}]))).find? (fun p => p.1 == ['h'])).map Prod.snd := by
  have h := claim_C7_hostnames_nodup_first_query
    (fun _ _ => .ok []) (fun _ => .ok {}) (fun loc => some loc)
    (some [⟨⟨[], ['h']⟩, {}⟩]) [{}] false
    [['h']] (some [((['h'] : Str), ({} : V1.DeviceQuery))]) none (by decide)
  exact ⟨h.1, h.2 _ rfl ['h']⟩

/-! ### Claim C4: success iff some hostname accumulated; no-match error -/

theorem v1_candidatePairs_nil (parseURL : Str → Option Str)
    (qs : List V1.DeviceQuery) (devs : List UPNPDevice)
    (h : ∀ a ∈ devs, ∀ q ∈ qs, V1.Matches a q = false) :
    candidatePairs parseURL qs devs = [] := by
  unfold candidatePairs
  rw [List.flatMap_eq_nil_iff]
  intro a ha
  rw [List.filterMap_eq_nil_iff]
  intro q hq
  simp [candidateOf, h a ha q hq]

theorem v2_expandedHosts_nil (parseURL : Str → Option Str)
    (qs : List V2.DeviceQuery) (all : List UPNPDevice)
    (h : ∀ a ∈ all, ∀ q ∈ qs, V2.Matches a q = false) :
    expandedHosts parseURL qs all = [] := by
  unfold expandedHosts
  rw [List.flatMap_eq_nil_iff]
  intro a ha
  rw [List.flatMap_eq_nil_iff]
  intro q hq
  simp [hostEntries, h a ha q hq]

/-- Claim C4: in both variants `FindHost` succeeds iff the returned
hostname list is non-empty, and when every search succeeds but no
discovered device matches any query it returns the empty hostname list
together with the no-match error carrying the whole query batch. -/
theorem claim_C4_success_iff_nonempty :
    (∀ (search : SearchType → Str → Except Str (List SsdpService))
       (readDesc : Str → Except Str DeviceDesc) (parseURL : Str → Option Str)
       (testInject : Option (List UPNPDevice)) (qs : List V1.DeviceQuery)
       (rootOnly : Bool) (hs : List Str)
       (m : Option (List (Str × V1.DeviceQuery))) (e : Option V1.FindErr),
      V1.FindHost search readDesc parseURL testInject qs rootOnly = (hs, m, e) →
      (e = none ↔ hs ≠ [])) ∧
    (∀ (search : SearchType → Str → Except Str (List SsdpService))
       (readDesc : Str → Except Str DeviceDesc) (parseURL : Str → Option Str)
       (testInject : Option (List UPNPDevice)) (qs : List V1.DeviceQuery)
       (rootOnly : Bool),
      (∀ n ∈ V1.parseNetworks qs,
        (V1.findAll search readDesc testInject rootOnly n).isOk) →
      (∀ a ∈ allDevices (V1.findAll search readDesc testInject rootOnly)
          (V1.parseNetworks qs), ∀ q ∈ qs, V1.Matches a q = false) →
      V1.FindHost search readDesc parseURL testInject qs rootOnly
        = ([], none, some (.noMatch qs))) ∧
    (∀ (search : SearchType → Str → Except Str (List SsdpService))
       (readDesc : Str → Except Str DeviceDesc) (parseURL : Str → Option Str)
       (testInject : Option (List UPNPDevice)) (qs : List V2.DeviceQuery)
       (rootOnly : Bool) (hs : List Str) (e : Option V2.FindErr),
      V2.FindHost search readDesc parseURL testInject qs rootOnly = (hs, e) →
      (e = none ↔ hs ≠ [])) ∧
    (∀ (search : SearchType → Str → Except Str (List SsdpService))
       (readDesc : Str → Except Str DeviceDesc) (parseURL : Str → Option Str)
       (testInject : Option (List UPNPDevice)) (qs : List V2.DeviceQuery)
       (rootOnly : Bool) (all : List UPNPDevice),
      V2.findAll search readDesc testInject rootOnly (V2.parseNetworks qs) = .ok all →
      (∀ a ∈ all, ∀ q ∈ qs, V2.Matches a q = false) →
      V2.FindHost search readDesc parseURL testInject qs rootOnly
        = ([], some (.noMatch qs))) := by
  refine ⟨?_, ?_, ?_, ?_⟩
  · intro search readDesc parseURL testInject qs rootOnly hs m e hEq
    unfold V1.FindHost at hEq
    exact v1_findHostGo_err_iff _ parseURL qs _ _ hs m e hEq
  · intro search readDesc parseURL testInject qs rootOnly hok hnm
    unfold V1.FindHost
    rw [v1_findHostGo_ok _ parseURL qs _ _ hok,
      v1_candidatePairs_nil parseURL qs _ hnm]
    rfl
  · intro search readDesc parseURL testInject qs rootOnly hs e hEq
    unfold V2.FindHost at hEq
    cases hfa : V2.findAll search readDesc testInject rootOnly (V2.parseNetworks qs) with
    | error e2 =>
      rw [hfa] at hEq
      dsimp only at hEq
      obtain ⟨h1, h2⟩ : ([] : List Str) = hs ∧
          (some (V2.FindErr.searchErr e2) : Option V2.FindErr) = e := by
        simpa [Prod.ext_iff] using hEq
      constructor
      · intro he; rw [he] at h2; simp at h2
      · intro hne; exact absurd h1.symm hne
    | ok all =>
      rw [hfa] at hEq
      dsimp only at hEq
      by_cases hl : 0 <
          (all.foldl (fun hostnames a => qs.foldl (V2.hostStep parseURL a) hostnames) []).length
      · rw [if_pos hl] at hEq
        obtain ⟨h1, h2⟩ :
            (all.foldl (fun hostnames a => qs.foldl (V2.hostStep parseURL a) hostnames) []) = hs ∧
            (none : Option V2.FindErr) = e := by
          simpa [Prod.ext_iff] using hEq
        constructor
        · intro _; rw [← h1]; exact List.length_pos.mp hl
        · intro _; exact h2.symm
      · rw [if_neg hl] at hEq
        obtain ⟨h1, h2⟩ : ([] : List Str) = hs ∧
            (some (V2.FindErr.noMatch qs) : Option V2.FindErr) = e := by
          simpa [Prod.ext_iff] using hEq
        constructor
        · intro he; rw [he] at h2; simp at h2
        · intro hne; exact absurd h1.symm hne
  · intro search readDesc parseURL testInject qs rootOnly all hfa hnm
    unfold V2.FindHost
    rw [hfa]
    dsimp only
    rw [v2_hostfold_eq, v2_expandedHosts_nil parseURL qs all hnm]
    rfl

/-- Concrete run of claim C4: with a successful search discovering nothing,
both variants return the empty hostname list and the no-match error
carrying the query batch. -/
theorem claim_C4_witness :
    V1.FindHost (fun _ _ => .ok []) (fun _ => .ok {}) (fun _ => none) none
        [{ network := ['x'] }] false
      = ([], none, some (.noMatch [{ network := ['x'] }])) ∧
    V2.FindHost (fun _ _ => .ok []) (fun _ => .ok {}) (fun _ => none) none
        [{}] false
      = ([], some (.noMatch [{}])) := by
  constructor
  · exact claim_C4_success_iff_nonempty.2.1 (fun _ _ => .ok []) (fun _ => .ok {})
      (fun _ => none) none [{ network := ['x'] }] false (by decide) (by decide)
  · exact claim_C4_success_iff_nonempty.2.2.2 (fun _ _ => .ok []) (fun _ => .ok {})
      (fun _ => none) none [{}] false [] rfl (by decide)

end Viamupnp
